import Mathlib

/-!
Verification of the ECDSA public-key recovery engine of besu-native-ec
(`src/ec_key_recovery.c`).  The engine is a single pure function,
`key_recovery`, built on top of an external curve-arithmetic library
(OpenSSL).  We embed the engine shallowly: the curve library is a
parameter (`ECParams`) supplying the group of curve points (an additive
commutative group whose zero is the point at infinity), the generator,
the curve order, decompression and encoding, exactly the collaborator
contract of the design document.  Every branch of the C function is
mirrored in the same order, with the same error message at each failure
site.  Memory-allocation failures of the C library (`BN_new`,
`EC_POINT_new`, `BN_CTX_new`, the group lookup) are the one thing not
modelled: in the embedding allocation never fails, matching the spec's
classification of those failures as a resource-exhaustion class outside
the algorithm.
-/

namespace BesuNativeEC

/-- Big-endian bytes-to-integer conversion, mirroring `BN_bin2bn` as used
on the (possibly truncated) data hash. -/
def bin2bn (bytes : List Nat) : Nat :=
  bytes.foldl (fun acc b => acc * 256 + b) 0

/-- Is `c` a hexadecimal digit?  Mirrors the character class accepted by
`BN_hex2bn`. -/
def isHexDigitChar (c : Char) : Bool :=
  ('0' ≤ c && c ≤ '9') || ('a' ≤ c && c ≤ 'f') || ('A' ≤ c && c ≤ 'F')

/-- Numeric value of one hexadecimal digit. -/
def hexDigitValue (c : Char) : Nat :=
  if '0' ≤ c ∧ c ≤ '9' then c.toNat - '0'.toNat
  else if 'a' ≤ c ∧ c ≤ 'f' then c.toNat - 'a'.toNat + 10
  else if 'A' ≤ c ∧ c ≤ 'F' then c.toNat - 'A'.toNat + 10
  else 0

/-- Value of a list of hexadecimal digits: `BN_hex2bn` consumes the
longest leading run of hex digits and fails when that run is empty. -/
def hexDigitsValue (cs : List Char) : Option Nat :=
  let ds := cs.takeWhile isHexDigitChar
  if ds.isEmpty then none
  else some (ds.foldl (fun acc c => acc * 16 + hexDigitValue c) 0)

/-- Hexadecimal-string-to-integer conversion, mirroring `BN_hex2bn`:
an optional leading minus sign followed by at least one hexadecimal
digit; parsing stops at the first non-digit; returns `none` (the C
failure return 0) when no digit was consumed. -/
def hex2bn (s : String) : Option Int :=
  match s.data with
  | '-' :: rest => (hexDigitsValue rest).map (fun m => -(m : Int))
  | cs => (hexDigitsValue cs).map (fun m => (m : Int))

/-- Modular inverse, mirroring `BN_mod_inverse(NULL, a, m, ctx)`: the
representative of `a` modulo `m` is inverted when an inverse exists,
otherwise the call fails (returns `NULL`, i.e. `none`). -/
def modInv (a : Int) (m : Nat) : Option Nat :=
  let a' : Nat := (a % (m : Int)).toNat
  (List.range m).find? (fun i => a' * i % m == 1)

/-- The collaborator contract of the curve-arithmetic library
(design document section 6): curve points form an additive commutative
group `P` whose zero is the point at infinity; the library supplies the
generator `G`, the curve order `n`, the field prime `p`, compressed-point
decompression (`EC_POINT_set_compressed_coordinates`: an x-coordinate and
a parity bit, failing when the x-coordinate is not on the curve) and
uncompressed point-to-hex encoding (`EC_POINT_point2hex`). -/
structure ECParams (P : Type) where
  G : P
  n : Nat
  p : Nat
  decompress : Int → Nat → Option P
  encode : P → String

/-- Result structure of the recovery engine, mirroring
`struct key_recovery_result`: a public-key string and an error-message
string, both initially empty. -/
structure key_recovery_result where
  public_key : String
  error_message : String
deriving DecidableEq, Repr

/-- Modelled from the spec: `set_error_message` (declared in `utils.h`,
whose implementation is not part of the sources) stores a
human-readable message in the result; the design document only requires
that a failure carry a message identifying the error.  An error result
therefore has the message of the failure site and an empty public key
(the `public_key` field is never written on an error path). -/
def error_result (msg : String) : key_recovery_result :=
  { public_key := "", error_message := msg }

/-- Error message of the recovery-id validation failure
(`InvalidRecoveryId` in the spec's taxonomy). -/
def invalid_recovery_id_message : String :=
  "signature_v must be either 0, 1, 27 or 28: "

/-- Error message when `r` cannot be parsed by `BN_hex2bn`
(`ArithmeticFailure` class in the spec's taxonomy). -/
def convert_r_message : String :=
  "Could not convert r of signature to BIGNUM: "

/-- Error message when decompression of the x-coordinate fails
(first `InvalidPoint` site in the spec's taxonomy). -/
def invalid_point_compressed_message : String :=
  "Could not set compressed coordinates for point R: "

/-- Error message when the cofactor check `n·R = ∞` fails
(second `InvalidPoint` site in the spec's taxonomy). -/
def not_infinity_message : String :=
  "Point nR should be at infinity, but is not: "

/-- Error message when `r` has no inverse modulo `n`
(`NoInverse` in the spec's taxonomy). -/
def no_inverse_message : String :=
  "Could not calculate the inverse of r: "

/-- Error message when `s` cannot be parsed by `BN_hex2bn`
(`ArithmeticFailure` class in the spec's taxonomy). -/
def convert_s_message : String :=
  "Could not convert s of signature to BIGNUM: "

/-- The recovery-id validation at the top of `key_recovery`:
`signature_v == 0 || signature_v == 1 || signature_v == 27 ||
signature_v == 28`. -/
def valid_v (signature_v : Nat) : Prop :=
  signature_v = 0 ∨ signature_v = 1 ∨ signature_v = 27 ∨ signature_v = 28

instance (signature_v : Nat) : Decidable (valid_v signature_v) :=
  inferInstanceAs (Decidable (_ ∨ _ ∨ _ ∨ _))

/-- Canonicalization of the recovery id: Ethereum transactions use 27 or
28 as valid values for v, converted to 0 or 1 internally
(`signature_v -= 27`). -/
def canon_v (signature_v : Nat) : Nat :=
  if signature_v = 27 ∨ signature_v = 28 then signature_v - 27 else signature_v

/-- Truncation of the data hash: if `data_hash` is longer than the curve
byte length, only the left-most `curve_byte_length` bytes are
considered. -/
def truncate_data_hash (data_hash : List Nat) (curve_byte_length : Nat) :
    List Nat :=
  if data_hash.length > curve_byte_length then
    data_hash.take curve_byte_length
  else data_hash

/-- Shallow embedding of `key_recovery` from `src/ec_key_recovery.c`,
with the same checks in the same order:
recovery-id validation, id canonicalization, hash truncation, parse of
`r`, decompression of `R` from `x = r` and the canonicalized id,
cofactor check `n·R = ∞`, conversion of the hash to the integer `e`,
modular inversion of `r`, parse of `s`, then
`Q = r⁻¹ · (s·R + (−e)·G)`, returned as its hexadecimal encoding with
the two leading format-identifier characters dropped (`Q_hex + 2`) and
at most 263 characters copied (`strncpy(..., 263)`). -/
def key_recovery {P : Type} [AddCommGroup P] [DecidableEq P] (C : ECParams P)
    (data_hash : List Nat) (signature_r_hex signature_s_hex : String)
    (signature_v : Nat) (curve_byte_length : Nat) : key_recovery_result :=
  if ¬valid_v signature_v then
    error_result invalid_recovery_id_message
  else
    match hex2bn signature_r_hex with
    | none => error_result convert_r_message
    | some r =>
      match C.decompress r (canon_v signature_v) with
      | none => error_result invalid_point_compressed_message
      | some R =>
        if ¬(C.n • R = 0) then
          error_result not_infinity_message
        else
          let e : Nat := bin2bn (truncate_data_hash data_hash curve_byte_length)
          match modInv r C.n with
          | none => error_result no_inverse_message
          | some inverse_r =>
            match hex2bn signature_s_hex with
            | none => error_result convert_s_message
            | some s =>
              let sR := s • R
              let negative_eG := (-(e : Int)) • C.G
              let sR_minus_eG := sR + negative_eG
              let Q := inverse_r • sR_minus_eG
              { public_key := ((C.encode Q).drop 2).take 263,
                error_message := "" }

/-- `w` is the byte length of the field of the curve of prime `p`, the
width to which `EC_POINT_point2hex` pads each coordinate:
the unique `w` with `256 ^ (w - 1) ≤ p < 256 ^ w`. -/
def isFieldByteLength (p w : Nat) : Prop :=
  0 < w ∧ 256 ^ (w - 1) ≤ p ∧ p < 256 ^ w

instance (p w : Nat) : Decidable (isFieldByteLength p w) :=
  inferInstanceAs (Decidable (_ ∧ _ ∧ _))

/-! ## Path characterizations of `key_recovery`

One lemma per exit of the C function, each with the hypotheses that
drive control flow to that exit, in the order the C checks them. -/

theorem key_recovery_invalid_v {P : Type} [AddCommGroup P] [DecidableEq P]
    (C : ECParams P) (data_hash : List Nat) (r_hex s_hex : String)
    (v bl : Nat) (hv : ¬valid_v v) :
    key_recovery C data_hash r_hex s_hex v bl =
      error_result invalid_recovery_id_message := by
  rw [key_recovery, if_pos hv]

theorem key_recovery_r_parse_fail {P : Type} [AddCommGroup P] [DecidableEq P]
    (C : ECParams P) (data_hash : List Nat) (r_hex s_hex : String)
    (v bl : Nat) (hv : valid_v v) (hr : hex2bn r_hex = none) :
    key_recovery C data_hash r_hex s_hex v bl =
      error_result convert_r_message := by
  rw [key_recovery, if_neg (not_not_intro hv), hr]

theorem key_recovery_decompress_fail {P : Type} [AddCommGroup P]
    [DecidableEq P] (C : ECParams P) (data_hash : List Nat)
    (r_hex s_hex : String) (v bl : Nat) (r : Int)
    (hv : valid_v v) (hr : hex2bn r_hex = some r)
    (hd : C.decompress r (canon_v v) = none) :
    key_recovery C data_hash r_hex s_hex v bl =
      error_result invalid_point_compressed_message := by
  rw [key_recovery, if_neg (not_not_intro hv), hr]
  simp only [hd]

theorem key_recovery_not_infinity {P : Type} [AddCommGroup P]
    [DecidableEq P] (C : ECParams P) (data_hash : List Nat)
    (r_hex s_hex : String) (v bl : Nat) (r : Int) (R : P)
    (hv : valid_v v) (hr : hex2bn r_hex = some r)
    (hd : C.decompress r (canon_v v) = some R) (hinf : ¬(C.n • R = 0)) :
    key_recovery C data_hash r_hex s_hex v bl =
      error_result not_infinity_message := by
  rw [key_recovery, if_neg (not_not_intro hv), hr]
  simp only [hd, if_pos hinf]

theorem key_recovery_no_inverse {P : Type} [AddCommGroup P]
    [DecidableEq P] (C : ECParams P) (data_hash : List Nat)
    (r_hex s_hex : String) (v bl : Nat) (r : Int) (R : P)
    (hv : valid_v v) (hr : hex2bn r_hex = some r)
    (hd : C.decompress r (canon_v v) = some R) (hinf : C.n • R = 0)
    (hinv : modInv r C.n = none) :
    key_recovery C data_hash r_hex s_hex v bl =
      error_result no_inverse_message := by
  rw [key_recovery, if_neg (not_not_intro hv), hr]
  simp only [hd, hinv, if_neg (not_not_intro hinf)]

theorem key_recovery_s_parse_fail {P : Type} [AddCommGroup P]
    [DecidableEq P] (C : ECParams P) (data_hash : List Nat)
    (r_hex s_hex : String) (v bl : Nat) (r : Int) (R : P) (i : Nat)
    (hv : valid_v v) (hr : hex2bn r_hex = some r)
    (hd : C.decompress r (canon_v v) = some R) (hinf : C.n • R = 0)
    (hinv : modInv r C.n = some i) (hs : hex2bn s_hex = none) :
    key_recovery C data_hash r_hex s_hex v bl =
      error_result convert_s_message := by
  rw [key_recovery, if_neg (not_not_intro hv), hr]
  simp only [hd, hinv, hs, if_neg (not_not_intro hinf)]

theorem key_recovery_success {P : Type} [AddCommGroup P]
    [DecidableEq P] (C : ECParams P) (data_hash : List Nat)
    (r_hex s_hex : String) (v bl : Nat) (r s : Int) (R : P) (i : Nat)
    (hv : valid_v v) (hr : hex2bn r_hex = some r)
    (hd : C.decompress r (canon_v v) = some R) (hinf : C.n • R = 0)
    (hinv : modInv r C.n = some i) (hs : hex2bn s_hex = some s) :
    key_recovery C data_hash r_hex s_hex v bl =
      { public_key :=
          ((C.encode (i • (s • R +
            (-(bin2bn (truncate_data_hash data_hash bl) : Int)) •
              C.G))).drop 2).take 263,
        error_message := "" } := by
  rw [key_recovery, if_neg (not_not_intro hv), hr]
  simp only [hd, hinv, hs, if_neg (not_not_intro hinf)]

/-! ## Properties of the arithmetic helpers -/

theorem modInv_spec {a : Int} {m i : Nat} (h : modInv a m = some i) :
    (a % (m : Int)).toNat * i % m = 1 := by
  unfold modInv at h
  have := List.find?_some h
  simpa using this

theorem modInv_zero (m : Nat) : modInv 0 m = none := by
  unfold modInv
  refine List.find?_eq_none.mpr (fun i _ => ?_)
  simp

theorem int_natCast_mod_toNat (a m : Nat) :
    ((a : Int) % (m : Int)).toNat = a % m := by
  omega

theorem modInv_natCast_isSome {a m : Nat} (hm : 1 < m)
    (h : Nat.Coprime a m) : ∃ i, modInv (a : Int) m = some i := by
  have hcop : Nat.Coprime (a % m) m := by
    have h1 : Nat.gcd m a = 1 := Nat.Coprime.gcd_eq_one (Nat.Coprime.symm h)
    have h2 : Nat.gcd m a = Nat.gcd (a % m) m := Nat.gcd_rec m a
    exact (h2 ▸ h1 : Nat.gcd (a % m) m = 1)
  obtain ⟨j, hj⟩ := Nat.exists_mul_emod_eq_one_of_coprime hcop hm
  have hjm : a % m * (j % m) % m = 1 := by
    have hmod : a % m * (j % m) % m = a % m * j % m :=
      Nat.ModEq.mul_left (a % m) (Nat.mod_modEq j m)
    rw [hmod]
    exact hj
  have hmem : j % m ∈ List.range m :=
    List.mem_range.mpr (Nat.mod_lt j (Nat.lt_of_lt_of_le Nat.zero_lt_one hm.le))
  have : ((List.range m).find? (fun i => a % m * i % m == 1)).isSome := by
    refine List.find?_isSome.mpr ⟨j % m, hmem, ?_⟩
    simpa using hjm
  obtain ⟨i, hi⟩ := Option.isSome_iff_exists.mp this
  refine ⟨i, ?_⟩
  unfold modInv
  rw [int_natCast_mod_toNat]
  exact hi

theorem modInv_natCast_spec {a m i : Nat} (h : modInv (a : Int) m = some i) :
    a * i % m = 1 := by
  have := modInv_spec h
  rw [int_natCast_mod_toNat] at this
  have hmod : a * i % m = a % m * i % m :=
    (Nat.ModEq.mul_right i (Nat.mod_modEq a m)).symm
  rw [hmod]
  exact this

theorem bin2bn_replicate_zero (t : Nat) : bin2bn (List.replicate t 0) = 0 := by
  induction t with
  | zero => rfl
  | succ k ih =>
      unfold bin2bn at ih ⊢
      simpa [List.replicate_succ] using ih

/-- Scalars that agree modulo the order of `G` act identically on `G`. -/
theorem zsmul_congr_mod {P : Type} [AddCommGroup P] {G : P} {n : Nat}
    (hG : n • G = 0) {a b : Int} (h : a % (n : Int) = b % (n : Int)) :
    a • G = b • G := by
  have hz : (n : Int) • G = 0 := by
    rw [natCast_zsmul]; exact hG
  obtain ⟨t, ht⟩ := Int.ModEq.dvd (h : a ≡ b [ZMOD (n : Int)])
  have hb : b = a + (n : Int) * t := by omega
  calc a • G = a • G + t • ((n : Int) • G) := by rw [hz, smul_zero, add_zero]
    _ = a • G + ((n : Int) * t) • G := by rw [mul_comm, mul_zsmul]
    _ = (a + (n : Int) * t) • G := (add_zsmul G a ((n : Int) * t)).symm
    _ = b • G := by rw [← hb]

/-! ## String helpers -/

theorem string_eq_of_data_eq {s t : String} (h : s.data = t.data) : s = t := by
  cases s
  cases t
  exact congrArg String.mk h

theorem string_drop_two_format (u : String) : ("04" ++ u).drop 2 = u := by
  refine string_eq_of_data_eq ?_
  rw [String.data_drop, String.data_append]
  rfl

theorem string_take_of_length_le {s : String} {k : Nat} (h : s.length ≤ k) :
    s.take k = s := by
  refine string_eq_of_data_eq ?_
  rw [String.data_take]
  exact List.take_of_length_le h

theorem string_ne_empty_of_length_pos {s : String} (h : 0 < s.length) :
    s ≠ "" := by
  intro he
  rw [he] at h
  exact Nat.lt_irrefl 0 h

theorem string_length_append (s t : String) :
    (s ++ t).length = s.length + t.length := by
  show (s ++ t).data.length = s.data.length + t.data.length
  rw [String.data_append, List.length_append]

theorem string_length_drop (s : String) (n : Nat) :
    (s.drop n).length = s.length - n := by
  show (s.drop n).data.length = s.data.length - n
  rw [String.data_drop, List.length_drop]

theorem string_length_take (s : String) (n : Nat) :
    (s.take n).length = min n s.length := by
  show (s.take n).data.length = min n s.data.length
  rw [String.data_take, List.length_take]

/-! ## A small concrete instantiation of the collaborator contract

Used by the witnesses: a cyclic group of order 7 standing for the group
of points of a curve with a one-byte field.  `key_recovery` in the C
source is generic over the curve (`curve_nid`, `curve_byte_length`), so
evaluating the embedding at a small instance exercises every branch of
the engine. -/

def demo_decompress (x : Int) (v : Nat) : Option (ZMod 7) :=
  if x = 0 then some 0
  else if x = 2 then (if v = 1 then some 2 else some 5)
  else none

def demo_coord (q : ZMod 7) : String :=
  String.mk ['0', Nat.digitChar q.val]

def demo_encode (q : ZMod 7) : String :=
  "04" ++ (demo_coord q ++ demo_coord (q + q))

def demo_params : ECParams (ZMod 7) :=
  { G := 1, n := 7, p := 7, decompress := demo_decompress,
    encode := demo_encode }

/-! ## The claims -/

/-- C2: for every digest, r, s and curve, if the recovery id argument is
outside the set \x7b0, 1, 27, 28\x7d, then `key_recovery` fails with the
`InvalidRecoveryId` error (the message set at the validation site),
regardless of the values of the other inputs. -/
theorem claim_C2_invalid_recovery_id {P : Type} [AddCommGroup P]
    [DecidableEq P] (C : ECParams P) (data_hash : List Nat)
    (r_hex s_hex : String) (v bl : Nat)
    (hv : ¬(v = 0 ∨ v = 1 ∨ v = 27 ∨ v = 28)) :
    key_recovery C data_hash r_hex s_hex v bl =
      error_result invalid_recovery_id_message :=
  key_recovery_invalid_v C data_hash r_hex s_hex v bl hv

theorem claim_C2_witness :
    key_recovery demo_params [1] ("2") ("3") 5 32 =
      error_result invalid_recovery_id_message :=
  claim_C2_invalid_recovery_id demo_params [1] ("2") ("3") 5 32 (by decide)

/-- C3: for every digest, r, s and curve, recovery id 27 gives the same
result as recovery id 0, and recovery id 28 the same result as recovery
id 1 (the ids are canonicalized by `signature_v -= 27` before use and
nothing else depends on the original id). -/
theorem claim_C3_canonicalization {P : Type} [AddCommGroup P]
    [DecidableEq P] (C : ECParams P) (data_hash : List Nat)
    (r_hex s_hex : String) (bl : Nat) :
    key_recovery C data_hash r_hex s_hex 27 bl =
        key_recovery C data_hash r_hex s_hex 0 bl ∧
      key_recovery C data_hash r_hex s_hex 28 bl =
        key_recovery C data_hash r_hex s_hex 1 bl :=
  ⟨rfl, rfl⟩

/-- C4: a digest longer than the curve byte length is not rejected; the
result is the same as with the digest pre-truncated to its left-most
`curve_byte_length` bytes. -/
theorem claim_C4_digest_truncation {P : Type} [AddCommGroup P]
    [DecidableEq P] (C : ECParams P) (data_hash : List Nat)
    (r_hex s_hex : String) (v bl : Nat)
    (hlen : data_hash.length > bl) :
    key_recovery C data_hash r_hex s_hex v bl =
      key_recovery C (data_hash.take bl) r_hex s_hex v bl := by
  have h1 : truncate_data_hash data_hash bl = data_hash.take bl :=
    if_pos hlen
  have h2 : truncate_data_hash (data_hash.take bl) bl = data_hash.take bl := by
    unfold truncate_data_hash
    rw [if_neg]
    rw [List.length_take]
    omega
  simp only [key_recovery, h1, h2]

theorem claim_C4_witness :
    key_recovery demo_params [2, 9, 9] ("2") ("4") 1 1 =
      key_recovery demo_params ([(2 : Nat), 9, 9].take 1) ("2") ("4") 1 1 :=
  claim_C4_digest_truncation demo_params [2, 9, 9] ("2") ("4") 1 1
    (by decide)

/-- C6: with the signature r component given as the hex string "0", the
call fails with the `NoInverse` error for every s, digest and valid
recovery id.  The hypotheses record the facts that make the earlier
checks pass on the fixed curve: `x = 0` decompresses (the curve
coefficient `b` is a quadratic residue, true on P-256) and the order
check holds (true on any prime-order curve). -/
theorem claim_C6_r_zero_no_inverse {P : Type} [AddCommGroup P]
    [DecidableEq P] (C : ECParams P) (data_hash : List Nat)
    (s_hex : String) (v bl : Nat) (R : P)
    (hv : v = 0 ∨ v = 1 ∨ v = 27 ∨ v = 28)
    (hdec : C.decompress 0 (canon_v v) = some R)
    (hinf : C.n • R = 0) :
    key_recovery C data_hash ("0") s_hex v bl =
      error_result no_inverse_message :=
  key_recovery_no_inverse C data_hash ("0") s_hex v bl 0 R hv rfl hdec hinf
    (modInv_zero C.n)

theorem claim_C6_witness :
    key_recovery demo_params [1] ("0") ("5") 28 32 =
      error_result no_inverse_message :=
  claim_C6_r_zero_no_inverse demo_params [1] ("5") 28 32 0 (by decide)
    (by decide) (by decide)

/-- C5: on every successful call the scalar multiplied with `G` in the
`(−e)·G` step is exactly `-(bin2bn (truncate_data_hash data_hash bl))`,
the negation of the big-endian unsigned-integer value of the (possibly
truncated) digest bytes, with no reduction modulo the curve order
anywhere: the result is literally
`r⁻¹ · (s·R + (−e)·G)` with that unreduced `e`. -/
theorem claim_C5_unreduced_digest_scalar {P : Type} [AddCommGroup P]
    [DecidableEq P] (C : ECParams P) (data_hash : List Nat)
    (r_hex s_hex : String) (v bl : Nat) (r s : Int) (R : P) (i : Nat)
    (hv : v = 0 ∨ v = 1 ∨ v = 27 ∨ v = 28)
    (hr : hex2bn r_hex = some r)
    (hdec : C.decompress r (canon_v v) = some R)
    (hinf : C.n • R = 0)
    (hinv : modInv r C.n = some i)
    (hs : hex2bn s_hex = some s) :
    key_recovery C data_hash r_hex s_hex v bl =
      { public_key :=
          ((C.encode (i • (s • R +
            (-(bin2bn (truncate_data_hash data_hash bl) : Int)) •
              C.G))).drop 2).take 263,
        error_message := "" } :=
  key_recovery_success C data_hash r_hex s_hex v bl r s R i hv hr hdec hinf
    hinv hs

set_option maxRecDepth 100000 in
theorem claim_C5_witness :
    key_recovery demo_params [9] ("2") ("4") 1 32 =
      { public_key :=
          ((demo_params.encode ((4 : Nat) • ((4 : Int) • (2 : ZMod 7) +
            (-(bin2bn (truncate_data_hash [9] 32) : Int)) •
              demo_params.G))).drop 2).take 263,
        error_message := "" } :=
  claim_C5_unreduced_digest_scalar demo_params [9] ("2") ("4") 1 32 2 4 2 4
    (by decide) (by decide) (by decide) (by decide) (by decide) (by decide)

/-- C7: for every input with a valid recovery id and a parseable r, the
call fails with one of the two `InvalidPoint` messages exactly when
decompression of `x = r` with the canonicalized parity bit fails, or the
reconstructed point `R` does not satisfy `n·R = 0` (point at
infinity). -/
theorem claim_C7_invalid_point_iff {P : Type} [AddCommGroup P]
    [DecidableEq P] (C : ECParams P) (data_hash : List Nat)
    (r_hex s_hex : String) (v bl : Nat) (r : Int)
    (hv : v = 0 ∨ v = 1 ∨ v = 27 ∨ v = 28)
    (hr : hex2bn r_hex = some r) :
    ((key_recovery C data_hash r_hex s_hex v bl).error_message =
        invalid_point_compressed_message ∨
      (key_recovery C data_hash r_hex s_hex v bl).error_message =
        not_infinity_message) ↔
    (C.decompress r (canon_v v) = none ∨
      ∃ R, C.decompress r (canon_v v) = some R ∧ ¬(C.n • R = 0)) := by
  have d1 : ¬(no_inverse_message = invalid_point_compressed_message) := by
    decide
  have d2 : ¬(no_inverse_message = not_infinity_message) := by decide
  have d3 : ¬(convert_s_message = invalid_point_compressed_message) := by
    decide
  have d4 : ¬(convert_s_message = not_infinity_message) := by decide
  have d5 : ¬(("" : String) = invalid_point_compressed_message) := by decide
  have d6 : ¬(("" : String) = not_infinity_message) := by decide
  rcases hd : C.decompress r (canon_v v) with _ | R
  · rw [key_recovery_decompress_fail C data_hash r_hex s_hex v bl r hv hr hd]
    simp [error_result]
  · by_cases hinf : C.n • R = 0
    · rcases hi : modInv r C.n with _ | i
      · rw [key_recovery_no_inverse C data_hash r_hex s_hex v bl r R hv hr hd
          hinf hi]
        simp [error_result, d1, d2, hinf]
      · rcases hs : hex2bn s_hex with _ | s
        · rw [key_recovery_s_parse_fail C data_hash r_hex s_hex v bl r R i hv
            hr hd hinf hi hs]
          simp [error_result, d3, d4, hinf]
        · rw [key_recovery_success C data_hash r_hex s_hex v bl r s R i hv hr
            hd hinf hi hs]
          simp [error_result, d5, d6, hinf]
    · rw [key_recovery_not_infinity C data_hash r_hex s_hex v bl r R hv hr hd
        hinf]
      simp [error_result, hinf]

theorem claim_C7_witness :
    ((key_recovery demo_params [1] ("3") ("4") 0 32).error_message =
        invalid_point_compressed_message ∨
      (key_recovery demo_params [1] ("3") ("4") 0 32).error_message =
        not_infinity_message) ↔
    (demo_params.decompress 3 (canon_v 0) = none ∨
      ∃ R, demo_params.decompress 3 (canon_v 0) = some R ∧
        ¬((demo_params.n : Nat) • R = 0)) :=
  claim_C7_invalid_point_iff demo_params [1] ("3") ("4") 0 32 3 (by decide)
    (by decide)

/-- C10: a zero-length digest, and likewise an all-zero digest of any
length, is accepted without error; it is interpreted as `e = 0`, so the
recovered key is `r⁻¹ · (s·R + (−0)·G) = r⁻¹ · (s·R)`, with no
special-case rejection of the empty or zero digest. -/
theorem claim_C10_zero_digest {P : Type} [AddCommGroup P]
    [DecidableEq P] (C : ECParams P) (m : Nat)
    (r_hex s_hex : String) (v bl : Nat) (r s : Int) (R : P) (i : Nat)
    (hv : v = 0 ∨ v = 1 ∨ v = 27 ∨ v = 28)
    (hr : hex2bn r_hex = some r)
    (hdec : C.decompress r (canon_v v) = some R)
    (hinf : C.n • R = 0)
    (hinv : modInv r C.n = some i)
    (hs : hex2bn s_hex = some s) :
    key_recovery C [] r_hex s_hex v bl =
        { public_key := ((C.encode (i • (s • R))).drop 2).take 263,
          error_message := "" } ∧
      key_recovery C (List.replicate m 0) r_hex s_hex v bl =
        { public_key := ((C.encode (i • (s • R))).drop 2).take 263,
          error_message := "" } := by
  have hzero : ∀ h : List Nat, bin2bn (truncate_data_hash h bl) = 0 →
      key_recovery C h r_hex s_hex v bl =
        { public_key := ((C.encode (i • (s • R))).drop 2).take 263,
          error_message := "" } := by
    intro h hh
    rw [key_recovery_success C h r_hex s_hex v bl r s R i hv hr hdec hinf
      hinv hs, hh]
    norm_num
  constructor
  · refine hzero [] ?_
    unfold truncate_data_hash
    simp [bin2bn]
  · refine hzero (List.replicate m 0) ?_
    unfold truncate_data_hash
    by_cases hc : (List.replicate m 0).length > bl
    · rw [if_pos hc, List.take_replicate, bin2bn_replicate_zero]
    · rw [if_neg hc, bin2bn_replicate_zero]

set_option maxRecDepth 100000 in
theorem claim_C10_witness :
    key_recovery demo_params [] ("2") ("4") 1 32 =
        { public_key :=
            ((demo_params.encode ((4 : Nat) • ((4 : Int) •
              (2 : ZMod 7)))).drop 2).take 263,
          error_message := "" } ∧
      key_recovery demo_params (List.replicate 5 0) ("2") ("4") 1 32 =
        { public_key :=
            ((demo_params.encode ((4 : Nat) • ((4 : Int) •
              (2 : ZMod 7)))).drop 2).take 263,
          error_message := "" } :=
  claim_C10_zero_digest demo_params 5 ("2") ("4") 1 32 2 4 2 4 (by decide)
    (by decide) (by decide) (by decide) (by decide) (by decide)

/-- C9: every call has exactly one of the two outcomes.  On every
failure path the public-key field is left empty and an error message is
set; on success the public key is non-empty and no error is set.  The
hypothesis is the collaborator contract for the encoder: an encoded
point (format byte plus coordinates) is always longer than the two
format characters that get stripped. -/
theorem claim_C9_exclusive_outcomes {P : Type} [AddCommGroup P]
    [DecidableEq P] (C : ECParams P) (data_hash : List Nat)
    (r_hex s_hex : String) (v bl : Nat)
    (henc : ∀ q : P, 2 < (C.encode q).length) :
    ((key_recovery C data_hash r_hex s_hex v bl).error_message ≠ "" ∧
      (key_recovery C data_hash r_hex s_hex v bl).public_key = "") ∨
    ((key_recovery C data_hash r_hex s_hex v bl).error_message = "" ∧
      (key_recovery C data_hash r_hex s_hex v bl).public_key ≠ "") := by
  by_cases hv : valid_v v
  · rcases hrx : hex2bn r_hex with _ | r
    · left
      rw [key_recovery_r_parse_fail C data_hash r_hex s_hex v bl hv hrx]
      exact ⟨by decide, rfl⟩
    · rcases hd : C.decompress r (canon_v v) with _ | R
      · left
        rw [key_recovery_decompress_fail C data_hash r_hex s_hex v bl r hv
          hrx hd]
        exact ⟨by decide, rfl⟩
      · by_cases hinf : C.n • R = 0
        · rcases hi : modInv r C.n with _ | i
          · left
            rw [key_recovery_no_inverse C data_hash r_hex s_hex v bl r R hv
              hrx hd hinf hi]
            exact ⟨by decide, rfl⟩
          · rcases hs : hex2bn s_hex with _ | s
            · left
              rw [key_recovery_s_parse_fail C data_hash r_hex s_hex v bl r R
                i hv hrx hd hinf hi hs]
              exact ⟨by decide, rfl⟩
            · right
              rw [key_recovery_success C data_hash r_hex s_hex v bl r s R i
                hv hrx hd hinf hi hs]
              refine ⟨rfl, ?_⟩
              apply string_ne_empty_of_length_pos
              rw [string_length_take, string_length_drop]
              have := henc (i • (s • R +
                (-(bin2bn (truncate_data_hash data_hash bl) : Int)) • C.G))
              omega
        · left
          rw [key_recovery_not_infinity C data_hash r_hex s_hex v bl r R hv
            hrx hd hinf]
          exact ⟨by decide, rfl⟩
  · left
    rw [key_recovery_invalid_v C data_hash r_hex s_hex v bl hv]
    exact ⟨by decide, rfl⟩

set_option maxRecDepth 100000 in
theorem claim_C9_witness :
    ((key_recovery demo_params [2] ("2") ("4") 1 32).error_message ≠ "" ∧
      (key_recovery demo_params [2] ("2") ("4") 1 32).public_key = "") ∨
    ((key_recovery demo_params [2] ("2") ("4") 1 32).error_message = "" ∧
      (key_recovery demo_params [2] ("2") ("4") 1 32).public_key ≠ "") :=
  claim_C9_exclusive_outcomes demo_params [2] ("2") ("4") 1 32 (by decide)

set_option maxRecDepth 100000 in
/-- C8: on every successful call the returned public key is the
uncompressed encoding of the recovered point `Q` with the leading
format-identifier byte (two hex characters) stripped: it is the
concatenation of two coordinate strings, each of twice the curve's
field byte-length, and prepending the format characters gives exactly
the encoder's output for `Q`.  The `henc` hypothesis is the
collaborator contract of `EC_POINT_point2hex` (format byte `04`
followed by the two fixed-width coordinates); `hwle` holds for every
real curve width (for P-256, `w = 32`). -/
theorem claim_C8_public_key_encoding {P : Type} [AddCommGroup P]
    [DecidableEq P] (C : ECParams P) (data_hash : List Nat)
    (r_hex s_hex : String) (v bl : Nat) (r s : Int) (R : P) (i : Nat)
    (w : Nat)
    (hv : v = 0 ∨ v = 1 ∨ v = 27 ∨ v = 28)
    (hr : hex2bn r_hex = some r)
    (hdec : C.decompress r (canon_v v) = some R)
    (hinf : C.n • R = 0)
    (hinv : modInv r C.n = some i)
    (hs : hex2bn s_hex = some s)
    (hw : isFieldByteLength C.p w)
    (hwle : 4 * w ≤ 263)
    (henc : ∀ q : P, ∃ xs ys : String,
      C.encode q = "04" ++ (xs ++ ys) ∧
        xs.length = 2 * w ∧ ys.length = 2 * w) :
    ∃ xs ys : String,
      (key_recovery C data_hash r_hex s_hex v bl).public_key = xs ++ ys ∧
        xs.length = 2 * w ∧ ys.length = 2 * w ∧
        C.encode (i • (s • R +
            (-(bin2bn (truncate_data_hash data_hash bl) : Int)) • C.G)) =
          "04" ++ (key_recovery C data_hash r_hex s_hex v bl).public_key := by
  rw [key_recovery_success C data_hash r_hex s_hex v bl r s R i hv hr hdec
    hinf hinv hs]
  dsimp only
  obtain ⟨xs, ys, he, hx, hy⟩ := henc (i • (s • R +
    (-(bin2bn (truncate_data_hash data_hash bl) : Int)) • C.G))
  have hlen : (xs ++ ys).length ≤ 263 := by
    rw [string_length_append, hx, hy]
    omega
  have hpk : ((C.encode (i • (s • R +
      (-(bin2bn (truncate_data_hash data_hash bl) : Int)) • C.G))).drop
        2).take 263 = xs ++ ys := by
    rw [he, string_drop_two_format, string_take_of_length_le hlen]
  refine ⟨xs, ys, hpk, hx, hy, ?_⟩
  rw [hpk, he]

set_option maxRecDepth 100000 in
theorem claim_C8_witness :
    ∃ xs ys : String,
      (key_recovery demo_params [2] ("2") ("4") 1 32).public_key =
          xs ++ ys ∧
        xs.length = 2 * 1 ∧ ys.length = 2 * 1 ∧
        demo_params.encode ((4 : Nat) • ((4 : Int) • (2 : ZMod 7) +
            (-(bin2bn (truncate_data_hash [2] 32) : Int)) •
              demo_params.G)) =
          "04" ++ (key_recovery demo_params [2] ("2") ("4") 1 32).public_key :=
  claim_C8_public_key_encoding demo_params [2] ("2") ("4") 1 32 2 4 2 4 1
    (by decide) (by decide) (by decide) (by decide) (by decide) (by decide)
    (by decide) (by decide)
    (fun q => ⟨demo_coord q, demo_coord (q + q), rfl, rfl, rfl⟩)

/-- C1: recovery is correct for compliant signatures.  For a signer with
private key `d` and nonce `k` over a curve whose generator `G` has
order `n` (`horder`), producing the ephemeral point `R = k·G`, digest
value `e`, signature scalars `r` (invertible mod `n`) and `s` with
`s·k ≡ e + r·d (mod n)`, and the correct recovery id (one whose
canonicalized parity bit makes decompression of `r` return exactly
`R = k·G`, `hdec`), `key_recovery` succeeds and returns exactly the
encoding of the signer's public key `d·G` (stripped of the format
byte). -/
theorem claim_C1_compliant_signer_recovery {P : Type} [AddCommGroup P]
    [DecidableEq P] (C : ECParams P) (d k e r s : Nat)
    (data_hash : List Nat) (r_hex s_hex : String) (v bl : Nat)
    (horder : C.n • C.G = 0)
    (hn : 1 < C.n)
    (hd1 : 1 ≤ d) (hd2 : d < C.n)
    (hk1 : 1 ≤ k) (hk2 : k < C.n)
    (he : bin2bn (truncate_data_hash data_hash bl) = e)
    (hr : hex2bn r_hex = some (r : Int))
    (hs : hex2bn s_hex = some (s : Int))
    (hrn : Nat.Coprime r C.n)
    (hsig : s * k % C.n = (e + r * d) % C.n)
    (hv : v = 0 ∨ v = 1 ∨ v = 27 ∨ v = 28)
    (hdec : C.decompress (r : Int) (canon_v v) = some (k • C.G)) :
    key_recovery C data_hash r_hex s_hex v bl =
      { public_key := ((C.encode (d • C.G)).drop 2).take 263,
        error_message := "" } := by
  obtain ⟨i, hi⟩ := modInv_natCast_isSome hn hrn
  have hri : r * i % C.n = 1 := modInv_natCast_spec hi
  have hinf : C.n • (k • C.G) = 0 := by
    rw [← mul_nsmul', mul_comm, mul_nsmul', horder, smul_zero]
  rw [key_recovery_success C data_hash r_hex s_hex v bl (r : Int) (s : Int)
    (k • C.G) i hv hr hdec hinf hi hs, he]
  have hq : (i : Nat) • ((s : Int) • k • C.G + (-(e : Int)) • C.G) =
      d • C.G := by
    rw [← natCast_zsmul C.G k, ← mul_zsmul, ← add_zsmul,
      ← natCast_zsmul _ i, ← mul_zsmul, ← natCast_zsmul C.G d]
    refine zsmul_congr_mod horder ?_
    have h2 : (s : Int) * k ≡ (e : Int) + r * d [ZMOD (C.n : Int)] := by
      have hcast := Int.natCast_modEq_iff.mpr
        (hsig : s * k ≡ e + r * d [MOD C.n])
      push_cast at hcast
      exact hcast
    have h3 : (r : Int) * i ≡ 1 [ZMOD (C.n : Int)] := by
      have hN : r * i % C.n = 1 % C.n := by
        rw [hri, Nat.mod_eq_of_lt hn]
      have hcast := Int.natCast_modEq_iff.mpr
        (hN : r * i ≡ 1 [MOD C.n])
      push_cast at hcast
      exact hcast
    calc (i : Int) * ((s : Int) * k + -(e : Int))
        ≡ (i : Int) * ((e : Int) + r * d + -(e : Int))
          [ZMOD (C.n : Int)] :=
          Int.ModEq.mul_left _ (Int.ModEq.add_right _ h2)
      _ = (r : Int) * i * d := by ring
      _ ≡ 1 * d [ZMOD (C.n : Int)] := Int.ModEq.mul_right _ h3
      _ = (d : Int) := one_mul _
  rw [hq]

set_option maxRecDepth 100000 in
theorem claim_C1_witness :
    key_recovery demo_params [2] ("2") ("4") 1 32 =
      { public_key :=
          ((demo_params.encode ((3 : Nat) • demo_params.G)).drop 2).take 263,
        error_message := "" } :=
  claim_C1_compliant_signer_recovery demo_params 3 2 2 2 4 [2] ("2") ("4")
    1 32 (by decide) (by decide) (by decide) (by decide) (by decide)
    (by decide) (by decide) (by decide) (by decide) (by decide) (by decide)
    (by decide) (by decide)

end BesuNativeEC
